import Mathlib

/-!
Verification of the asynchronous job lifecycle manager of the pdftoword
frontend: the job registry kept in `App.tsx`, the eviction sweeper
(`useAutoCleanup`), the status pollers (the `useFilePolling` hook and the
inline `pollFile` loop in `App.tsx`), and the view controller
(`navigateTo` / `goBack` and the completion / eviction reactions).

Timestamps are epoch milliseconds modelled as `Nat`; external calls
(`api.getFileStatus`, `api.deleteFile`) are modelled by explicit result
values (success / throw) fed to the step functions.
-/

/-- The TS status union `'processing' | 'completed' | 'error'`. -/
inductive JobStatus where
  | processing
  | completed
  | error
  deriving Repr, DecidableEq

/-- The `FileStatus` record returned by `api.getFileStatus` (fields the
lifecycle logic reads; `upload_date` / `expiry_date` as epoch ms). -/
structure ApiFile where
  id : String
  name : String
  status : JobStatus
  progress : Nat
  uploadDate : Nat
  expiryDate : Nat
  fileSize : Nat
  errMsg : Option String := none
  deriving Repr, DecidableEq

/-- The `ProcessedFile` record stored in the `files` state of `App.tsx`. -/
structure ProcessedFile where
  id : String
  name : String
  uploadDate : Nat
  expiryDate : Nat
  status : JobStatus
  progress : Nat
  fileSize : Nat
  errMsg : Option String := none
  deriving Repr, DecidableEq

/-- Function `convertApiFileToProcessedFile` from `App.tsx`: field-by-field copy of
the fetched snapshot into the registry record shape. -/
def convertApiFileToProcessedFile (apiFile : ApiFile) : ProcessedFile :=
  { id := apiFile.id
    name := apiFile.name
    uploadDate := apiFile.uploadDate
    expiryDate := apiFile.expiryDate
    status := apiFile.status
    progress := apiFile.progress
    fileSize := apiFile.fileSize
    errMsg := apiFile.errMsg }

/-- The view alphabet `AppView` of `App.tsx`. -/
inductive AppView where
  | upload
  | editor
  | batch
  | stored
  | processing
  deriving Repr, DecidableEq

/-- The `App` component state touched by navigation, polling and cleanup:
`currentView`, `previousView`, the `files` registry, `currentFileId`
(the job bound to the view) and `processingFileId` (the job shown on the
processing screen). -/
structure AppState where
  currentView : AppView
  previousView : AppView
  files : List ProcessedFile
  currentFileId : Option String
  processingFileId : Option String
  deriving Repr, DecidableEq

/-- Navigation `navigateTo(view)` from `App.tsx`: only when the view changes does the
one-slot history advance. -/
def navigateTo (st : AppState) (view : AppView) : AppState :=
  if st.currentView ≠ view then
    { st with previousView := st.currentView, currentView := view }
  else st

/-- Navigation `goBack()` from `App.tsx`: target is `previousView` when it differs
from `currentView`, else `upload`; afterwards `previousView` is reset to
`upload`. -/
def goBack (st : AppState) : AppState :=
  let targetView := if st.previousView ≠ st.currentView then st.previousView else AppView.upload
  { st with previousView := AppView.upload, currentView := targetView }

/-- Retention window used in `handleFilesUploaded`:
`2 * 24 * 60 * 60 * 1000` ms (2 days). -/
def retentionWindowMs : Nat := 2 * 24 * 60 * 60 * 1000

/-- The `initialFile` entry built in `handleFilesUploaded` for a single
upload at time `now`: `status: 'processing'`, `progress: 0`,
`expiryDate: Date.now() + 2*24*60*60*1000`. -/
def mkInitialFile (fileId name : String) (now size : Nat) : ProcessedFile :=
  { id := fileId
    name := name
    uploadDate := now
    expiryDate := now + 2 * 24 * 60 * 60 * 1000
    status := JobStatus.processing
    progress := 0
    fileSize := size
    errMsg := none }

/-- Sweep body `checkExpiredFiles` from `useAutoCleanup`: walk the captured `files`
array; for each file with `now >= expiryDate` attempt the external
delete (`deleteOk` tells whether `api.deleteFile` resolves or throws);
on success report the id to `onFileDeleted`, on throw only log. Returns
the ids passed to `onFileDeleted`, in loop order. -/
def checkExpiredFiles (now : Nat) (deleteOk : String → Bool) :
    List ProcessedFile → List String
  | [] => []
  | f :: rest =>
    if now ≥ f.expiryDate then
      if deleteOk f.id then f.id :: checkExpiredFiles now deleteOk rest
      else checkExpiredFiles now deleteOk rest
    else checkExpiredFiles now deleteOk rest

/-- The `onFileDeleted` callback `App.tsx` passes to `useAutoCleanup`:
filter the file out of the registry; if it was the job bound to the view
(`currentFileId`), clear the focus and force-navigate to `upload`. -/
def onFileDeletedApp (fileId : String) (st : AppState) : AppState :=
  let st₁ := { st with files := st.files.filter (fun f => f.id ≠ fileId) }
  if st₁.currentFileId = some fileId then
    { st₁ with currentFileId := none, currentView := AppView.upload }
  else st₁

/-- One eviction sweep as run by `useAutoCleanup` against the `App` state:
every id reported by `checkExpiredFiles` is fed to the `onFileDeleted`
callback in order. -/
def runSweep (now : Nat) (deleteOk : String → Bool) (st : AppState) : AppState :=
  (checkExpiredFiles now deleteOk st.files).foldl (fun s fid => onFileDeletedApp fid s) st

theorem checkExpiredFiles_eq (now : Nat) (deleteOk : String → Bool)
    (files : List ProcessedFile) :
    checkExpiredFiles now deleteOk files =
      (files.filter (fun f => decide (now ≥ f.expiryDate) && deleteOk f.id)).map
        (fun f => f.id) := by
  induction files with
  | nil => rfl
  | cons f rest ih =>
    simp only [checkExpiredFiles, List.filter_cons]
    by_cases hexp : now ≥ f.expiryDate <;> by_cases hok : deleteOk f.id <;>
      simp [hexp, hok, ih]

theorem mem_checkExpiredFiles {now : Nat} {deleteOk : String → Bool}
    {files : List ProcessedFile} {fid : String} :
    fid ∈ checkExpiredFiles now deleteOk files ↔
      ∃ f ∈ files, f.id = fid ∧ now ≥ f.expiryDate ∧ deleteOk fid = true := by
  simp only [checkExpiredFiles_eq, List.mem_map, List.mem_filter, Bool.and_eq_true,
    decide_eq_true_eq]
  constructor
  · rintro ⟨f, ⟨hmem, hexp, hok⟩, rfl⟩
    exact ⟨f, hmem, rfl, hexp, hok⟩
  · rintro ⟨f, hmem, rfl, hexp, hok⟩
    exact ⟨f, ⟨hmem, hexp, hok⟩, rfl⟩

theorem files_onFileDeletedApp (fileId : String) (st : AppState) :
    (onFileDeletedApp fileId st).files = st.files.filter (fun f => f.id ≠ fileId) := by
  unfold onFileDeletedApp
  by_cases h : st.currentFileId = some fileId <;> simp [h]

theorem files_foldl_onFileDeletedApp (ids : List String) (st : AppState)
    (f : ProcessedFile) :
    f ∈ (ids.foldl (fun s fid => onFileDeletedApp fid s) st).files ↔
      f ∈ st.files ∧ f.id ∉ ids := by
  induction ids generalizing st with
  | nil => simp
  | cons i rest ih =>
    simp only [List.foldl_cons, ih, files_onFileDeletedApp, List.mem_filter,
      List.mem_cons, decide_eq_true_eq]
    constructor
    · rintro ⟨⟨hmem, hne⟩, hnotin⟩
      exact ⟨hmem, fun h => h.elim hne hnotin⟩
    · rintro ⟨hmem, hnot⟩
      exact ⟨⟨hmem, fun h => hnot (Or.inl h)⟩, fun h => hnot (Or.inr h)⟩

/-- Result of one `api.getFileStatus` call as seen by a poller: the
promise resolves with a snapshot (`ok`) or rejects (`failed`). -/
inductive FetchResult where
  | ok (file : ApiFile)
  | failed
  deriving Repr, DecidableEq

/-- Retry ceiling `maxRetries = 3` of `useFilePolling`. -/
def maxRetries : Nat := 3

/-- Default polling interval (ms) of `useFilePolling`. -/
def pollIntervalMs : Nat := 2000

/-- State of one `useFilePolling` instance: `retryCount` and the
`isPollingRef` flag from the hook, whether `intervalRef` still holds a
live timer, the number of outstanding `getFileStatus` promises, plus
observation fields recording the hook's outputs (fetches issued, last
`onUpdate` payload, whether `onComplete` / `onError` fired). -/
structure PollerState where
  retryCount : Nat
  inFlight : Bool
  timerActive : Bool
  pendingFetches : Nat
  fetchCount : Nat
  lastUpdate : Option ApiFile
  onCompleteCalled : Bool
  onErrorCalled : Bool
  deriving Repr, DecidableEq

/-- State right after the hook's effect runs: no fetch yet, counter zero,
interval armed. -/
def initPollerState : PollerState :=
  { retryCount := 0
    inFlight := false
    timerActive := true
    pendingFetches := 0
    fetchCount := 0
    lastUpdate := none
    onCompleteCalled := false
    onErrorCalled := false }

/-- Events delivered to a `useFilePolling` instance by the JS event loop:
a timer tick firing `pollFileStatus`, or the resolution of the pending
`getFileStatus` promise (the `await` continuation through `finally` runs
synchronously, so it is one atomic step). -/
inductive PollerEvent where
  | tick
  | fetchDone (r : FetchResult)
  deriving Repr, DecidableEq

/-- One step of `pollFileStatus` from `useFilePolling`. A tick on a
cleared timer never fires; a tick while `isPollingRef.current` is set
returns immediately; otherwise the flag is set and a fetch starts. When
the fetch settles: on success `onUpdate` runs, `retryCount` resets to 0,
and a terminal status clears the interval (calling `onComplete` on
`completed`); on rejection `retryCount` increments and, once it reaches
`maxRetries`, the interval is cleared and `onError` runs. The `finally`
clause resets `isPollingRef.current` on every path. -/
def stepPoller (s : PollerState) : PollerEvent → PollerState
  | PollerEvent.tick =>
    if ¬ s.timerActive then s
    else if s.inFlight then s
    else { s with inFlight := true
                  pendingFetches := s.pendingFetches + 1
                  fetchCount := s.fetchCount + 1 }
  | PollerEvent.fetchDone r =>
    if s.pendingFetches = 0 then s
    else
      let s₁ := { s with pendingFetches := s.pendingFetches - 1 }
      let s₂ :=
        match r with
        | FetchResult.ok file =>
          let sU := { s₁ with lastUpdate := some file, retryCount := 0 }
          if file.status = JobStatus.completed ∨ file.status = JobStatus.error then
            let sT := { sU with timerActive := false }
            if file.status = JobStatus.completed then
              { sT with onCompleteCalled := true }
            else sT
          else sU
        | FetchResult.failed =>
          let sF := { s₁ with retryCount := s₁.retryCount + 1 }
          if sF.retryCount ≥ maxRetries then
            { sF with timerActive := false, onErrorCalled := true }
          else sF
      { s₂ with inFlight := false }

/-- Run a `useFilePolling` instance over a sequence of events. -/
def runPoller (s : PollerState) (evs : List PollerEvent) : PollerState :=
  evs.foldl stepPoller s

/-- Update applied by the inline `pollFile` of `App.tsx` on a successful
fetch: `setFiles(prev.map(f => f.id === apiFile.id ?
convertApiFileToProcessedFile(apiFile) : f))` — the stored record is
replaced wholesale, with no progress-regression check. -/
def applyPolledUpdate (files : List ProcessedFile) (apiFile : ApiFile) :
    List ProcessedFile :=
  files.map (fun f =>
    if f.id = apiFile.id then convertApiFileToProcessedFile apiFile else f)

/-- State of the inline polling effect in `App.tsx`: the
`processingFileIds` set, the `files` registry, outstanding
`getFileStatus` promises and the count of fetches issued. There is no
per-job in-flight flag and no retry counter in this code path. -/
structure AppPollerState where
  processingFileIds : List String
  files : List ProcessedFile
  pendingFetches : Nat
  fetchCount : Nat
  deriving Repr, DecidableEq

/-- Events for the inline `pollFile` loop: a tick of the interval armed
for `fid`, or the settlement of a pending fetch for `fid`. -/
inductive AppPollerEvent where
  | tick (fid : String)
  | fetchDone (fid : String) (r : FetchResult)
  deriving Repr, DecidableEq

/-- One step of the inline `pollFile` of `App.tsx`. A tick for a job
still in `processingFileIds` starts a fetch unconditionally (there is no
in-flight guard). When a fetch settles: on success the snapshot replaces
the stored record and a terminal status removes the id from
`processingFileIds`; on rejection the id is removed from
`processingFileIds` at once — no retry counter, no error status written
to the registry. -/
def stepAppPoller (s : AppPollerState) : AppPollerEvent → AppPollerState
  | AppPollerEvent.tick fid =>
    if fid ∈ s.processingFileIds then
      { s with pendingFetches := s.pendingFetches + 1
               fetchCount := s.fetchCount + 1 }
    else s
  | AppPollerEvent.fetchDone fid r =>
    if s.pendingFetches = 0 then s
    else
      let s₁ := { s with pendingFetches := s.pendingFetches - 1 }
      match r with
      | FetchResult.ok file =>
        let s₂ := { s₁ with files := applyPolledUpdate s₁.files file }
        if file.status = JobStatus.completed ∨ file.status = JobStatus.error then
          { s₂ with processingFileIds := s₂.processingFileIds.filter (fun i => i ≠ file.id) }
        else s₂
      | FetchResult.failed =>
        { s₁ with processingFileIds := s₁.processingFileIds.filter (fun i => i ≠ fid) }

/-- Run the inline `App.tsx` polling loop over a sequence of events. -/
def runAppPoller (s : AppPollerState) (evs : List AppPollerEvent) : AppPollerState :=
  evs.foldl stepAppPoller s

/-- Reaction of `pollFile` in `App.tsx` when a fetched snapshot reports
`completed`: either a scheduled forced navigation (a `setTimeout` whose
callback sets `currentFileId` and `currentView := editor`) or a passive
toast carrying a View action. -/
inductive CompletionAction where
  | autoNavigate (delayMs : Nat) (target : AppView) (fileId : String)
  | passiveNotify (fileId : String)
  deriving Repr, DecidableEq

/-- Decision taken by `pollFile` for a `completed` snapshot: auto-navigate
to the editor after 2000 ms only when the completed job is
`processingFileId` and the user is still on the processing screen;
otherwise only a passive notification. -/
def onFileCompletedAction (processingFileId : Option String)
    (currentView : AppView) (fid : String) : CompletionAction :=
  if processingFileId = some fid ∧ currentView = AppView.processing then
    CompletionAction.autoNavigate 2000 AppView.editor fid
  else
    CompletionAction.passiveNotify fid

/-- Sample registry record whose retention expired at time 100. -/
def sampleExpiredFile : ProcessedFile :=
  { id := "j1"
    name := "a.pdf"
    uploadDate := 0
    expiryDate := 100
    status := JobStatus.processing
    progress := 0
    fileSize := 10
    errMsg := none }

/-- Sample `App` state focused on `sampleExpiredFile`. -/
def sampleAppState : AppState :=
  { currentView := AppView.editor
    previousView := AppView.upload
    files := [sampleExpiredFile]
    currentFileId := some "j1"
    processingFileId := none }

/-- C1: an eviction sweep removes a job from the tracked file list iff
the sweep time is at or past the job's expiry timestamp and the external
delete succeeded; if the external delete throws, the job is not removed
and remains for the next sweep. -/
theorem sweep_removes_iff_expired_and_deleted (now : Nat) (deleteOk : String → Bool)
    (st : AppState) (hnodup : (st.files.map (fun f => f.id)).Nodup)
    (f : ProcessedFile) (hf : f ∈ st.files) :
    (f ∉ (runSweep now deleteOk st).files ↔
      now ≥ f.expiryDate ∧ deleteOk f.id = true) ∧
    (deleteOk f.id = false → f ∈ (runSweep now deleteOk st).files) := by
  have hmem : f ∈ (runSweep now deleteOk st).files ↔
      f ∈ st.files ∧ f.id ∉ checkExpiredFiles now deleteOk st.files := by
    simp only [runSweep]
    exact files_foldl_onFileDeletedApp _ _ _
  have hid : f.id ∈ checkExpiredFiles now deleteOk st.files ↔
      now ≥ f.expiryDate ∧ deleteOk f.id = true := by
    rw [mem_checkExpiredFiles]
    constructor
    · rintro ⟨g, hg, hgid, hge, hok⟩
      have hgf : g = f := List.inj_on_of_nodup_map hnodup hg hf hgid
      subst hgf
      exact ⟨hge, hok⟩
    · rintro ⟨hge, hok⟩
      exact ⟨f, hf, rfl, hge, hok⟩
  refine ⟨⟨?_, ?_⟩, ?_⟩
  · intro hnot
    by_contra hcon
    exact hnot (hmem.mpr ⟨hf, fun hin => hcon (hid.mp hin)⟩)
  · intro hcond hin
    exact (hmem.mp hin).2 (hid.mpr hcond)
  · intro hfail
    refine hmem.mpr ⟨hf, fun hin => ?_⟩
    have hok := (hid.mp hin).2
    rw [hfail] at hok
    exact Bool.false_ne_true hok

/-- Concrete instance of the eviction sweep claim: the external delete
throws for every id, so the expired job survives the sweep. -/
theorem sweep_removes_iff_expired_and_deleted_witness :
    ((sampleAppState.files.map (fun f => f.id)).Nodup ∧ sampleExpiredFile ∈ sampleAppState.files) ∧
      sampleExpiredFile ∈ (runSweep 200 (fun _ => false) sampleAppState).files :=
  ⟨⟨by decide, by decide⟩,
    (sweep_removes_iff_expired_and_deleted 200 (fun _ => false) sampleAppState
      (by decide) sampleExpiredFile (by decide)).2 rfl⟩

/-- C9: a job created at time `t` gets `expiryDate = t + 2` days, fixed at
creation; a sweep 1 second before expiry does not remove it, and a sweep
1 second after expiry does, given the backing delete succeeds. -/
theorem retention_window_and_boundary (fileId name : String) (t size : Nat)
    (deleteOk : String → Bool) :
    (mkInitialFile fileId name t size).expiryDate = t + retentionWindowMs ∧
    retentionWindowMs = 2 * 24 * 60 * 60 * 1000 ∧
    checkExpiredFiles (t + retentionWindowMs - 1000) deleteOk
      [mkInitialFile fileId name t size] = [] ∧
    (deleteOk fileId = true →
      checkExpiredFiles (t + retentionWindowMs + 1000) deleteOk
        [mkInitialFile fileId name t size] = [fileId]) := by
  refine ⟨rfl, rfl, ?_, ?_⟩
  · simp only [checkExpiredFiles, mkInitialFile]
    rw [if_neg]
    simp only [retentionWindowMs]
    omega
  · intro hok
    simp only [checkExpiredFiles, mkInitialFile]
    rw [if_pos, if_pos]
    · exact hok
    · simp only [retentionWindowMs]
      omega

/-- Concrete instance of the retention boundary claim at `t = 0` with an
always-succeeding backing delete. -/
theorem retention_window_and_boundary_witness :
    (mkInitialFile "j1" "a.pdf" 0 10).expiryDate = 0 + retentionWindowMs ∧
      checkExpiredFiles (0 + retentionWindowMs - 1000) (fun _ => true)
        [mkInitialFile "j1" "a.pdf" 0 10] = [] ∧
      checkExpiredFiles (0 + retentionWindowMs + 1000) (fun _ => true)
        [mkInitialFile "j1" "a.pdf" 0 10] = ["j1"] :=
  ⟨(retention_window_and_boundary "j1" "a.pdf" 0 10 (fun _ => true)).1,
    (retention_window_and_boundary "j1" "a.pdf" 0 10 (fun _ => true)).2.2.1,
    (retention_window_and_boundary "j1" "a.pdf" 0 10 (fun _ => true)).2.2.2 rfl⟩

/-- C8: `goBack` targets `previousView` when it differs from
`currentView` and `upload` otherwise, resets `previousView` to `upload`,
and a `goBack` that lands on `upload` makes a second `goBack` a no-op. -/
theorem goBack_spec (st : AppState) :
    (goBack st).currentView =
      (if st.previousView ≠ st.currentView then st.previousView else AppView.upload) ∧
    (goBack st).previousView = AppView.upload ∧
    ((goBack st).currentView = AppView.upload → goBack (goBack st) = goBack st) := by
  have hfix : ∀ s : AppState, s.previousView = AppView.upload →
      s.currentView = AppView.upload → goBack s = s := by
    intro s h1 h2
    obtain ⟨cv, pv, fs, cf, pf⟩ := s
    dsimp only at h1 h2
    subst h1
    subst h2
    simp [goBack]
  refine ⟨rfl, rfl, ?_⟩
  intro h
  exact hfix (goBack st) rfl h

/-- Sample state on the `stored` view with one-slot history `upload`. -/
def sampleStoredState : AppState :=
  { sampleAppState with currentView := AppView.stored, previousView := AppView.upload }

/-- Concrete instance of the `goBack` claim: from `stored` with history
`upload`, going back lands on `upload` and a second `goBack` is a no-op. -/
theorem goBack_spec_witness :
    (goBack sampleStoredState).currentView = AppView.upload ∧
      goBack (goBack sampleStoredState) = goBack sampleStoredState :=
  ⟨by decide, (goBack_spec sampleStoredState).2.2 (by decide)⟩

/-- C7: when the job bound to the view is evicted by the cleanup sweep,
the `onFileDeleted` callback force-navigates to `upload`, clears the
focused job id, and the removed job no longer appears in the registry. -/
theorem eviction_of_focused_job_navigates (st : AppState) (fid : String)
    (hfocus : st.currentFileId = some fid) :
    (onFileDeletedApp fid st).currentView = AppView.upload ∧
    (onFileDeletedApp fid st).currentFileId = none ∧
    ∀ f ∈ (onFileDeletedApp fid st).files, f.id ≠ fid := by
  refine ⟨?_, ?_, ?_⟩ <;> simp only [onFileDeletedApp, hfocus, if_pos]
  intro f hf
  have := (List.mem_filter.mp hf).2
  simpa using this

/-- Concrete instance of the focused-job eviction claim. -/
theorem eviction_of_focused_job_navigates_witness :
    (onFileDeletedApp "j1" sampleAppState).currentView = AppView.upload ∧
      (onFileDeletedApp "j1" sampleAppState).currentFileId = none :=
  ⟨(eviction_of_focused_job_navigates sampleAppState "j1" (by decide)).1,
    (eviction_of_focused_job_navigates sampleAppState "j1" (by decide)).2.1⟩

/-- C6: a `completed` snapshot for the job on the processing screen
triggers auto-navigation to the editor after a 2000 ms grace delay only
when `currentView` is still `processing`; otherwise only a passive
notification is surfaced. -/
theorem completion_navigation (processingFileId : Option String)
    (currentView : AppView) (fid : String) :
    (processingFileId = some fid → currentView = AppView.processing →
      onFileCompletedAction processingFileId currentView fid =
        CompletionAction.autoNavigate 2000 AppView.editor fid) ∧
    (¬ (processingFileId = some fid ∧ currentView = AppView.processing) →
      onFileCompletedAction processingFileId currentView fid =
        CompletionAction.passiveNotify fid) := by
  constructor
  · intro h1 h2
    simp [onFileCompletedAction, h1, h2]
  · intro h
    simp only [onFileCompletedAction, if_neg h]

/-- Concrete instances of the completion-navigation claim: focused job
completing on the processing screen auto-navigates; after the user moved
to `stored`, only a passive notification occurs. -/
theorem completion_navigation_witness :
    onFileCompletedAction (some "j1") AppView.processing "j1" =
        CompletionAction.autoNavigate 2000 AppView.editor "j1" ∧
      onFileCompletedAction (some "j1") AppView.stored "j1" =
        CompletionAction.passiveNotify "j1" :=
  ⟨(completion_navigation (some "j1") AppView.processing "j1").1 rfl rfl,
    (completion_navigation (some "j1") AppView.stored "j1").2 (by decide)⟩

/-- Sample in-progress snapshot returned by `api.getFileStatus`. -/
def procSnapshot : ApiFile :=
  { id := "j1"
    name := "a.pdf"
    status := JobStatus.processing
    progress := 40
    uploadDate := 0
    expiryDate := 100
    fileSize := 10
    errMsg := none }

/-- Event trace of `n` tick / failed-fetch pairs. -/
def failPairs : Nat → List PollerEvent
  | 0 => []
  | n + 1 => PollerEvent.tick :: PollerEvent.fetchDone FetchResult.failed :: failPairs n

theorem stepPoller_retired {s : PollerState} (ht : s.timerActive = false)
    (hp : s.pendingFetches = 0) (ev : PollerEvent) : stepPoller s ev = s := by
  cases ev with
  | tick => simp [stepPoller, ht]
  | fetchDone r => simp [stepPoller, hp]

theorem runPoller_retired {s : PollerState} (ht : s.timerActive = false)
    (hp : s.pendingFetches = 0) (evs : List PollerEvent) : runPoller s evs = s := by
  induction evs with
  | nil => rfl
  | cons e rest ih =>
    show runPoller (stepPoller s e) rest = s
    rw [stepPoller_retired ht hp, ih]

theorem stepPoller_fetchDone_proj {s : PollerState} (hp : s.pendingFetches ≠ 0)
    (r : FetchResult) :
    (stepPoller s (PollerEvent.fetchDone r)).inFlight = false ∧
    (stepPoller s (PollerEvent.fetchDone r)).pendingFetches = s.pendingFetches - 1 ∧
    (stepPoller s (PollerEvent.fetchDone r)).fetchCount = s.fetchCount := by
  cases r with
  | ok file => cases hstat : file.status <;> simp [stepPoller, hp, hstat]
  | failed =>
    by_cases hr : s.retryCount + 1 ≥ maxRetries <;> simp [stepPoller, hp, hr]

/-- The in-flight discipline of `useFilePolling`: at most one outstanding
fetch, and `isPollingRef` is set exactly while one is outstanding. -/
def pollerFetchInv (s : PollerState) : Prop :=
  s.pendingFetches ≤ 1 ∧ (s.inFlight = true ↔ s.pendingFetches = 1)

theorem initPollerState_inv : pollerFetchInv initPollerState := by
  refine ⟨by decide, by decide⟩

theorem stepPoller_inv {s : PollerState} (h : pollerFetchInv s) (ev : PollerEvent) :
    pollerFetchInv (stepPoller s ev) := by
  obtain ⟨h1, h2⟩ := h
  cases ev with
  | tick =>
    by_cases ht : s.timerActive
    · by_cases hf : s.inFlight
      · have hstep : stepPoller s PollerEvent.tick = s := by simp [stepPoller, ht, hf]
        rw [hstep]; exact ⟨h1, h2⟩
      · have hne : s.pendingFetches ≠ 1 := fun hpend => hf (h2.mpr hpend)
        have hp0 : s.pendingFetches = 0 := by omega
        simp [stepPoller, pollerFetchInv, ht, hf, hp0]
    · have hstep : stepPoller s PollerEvent.tick = s := by simp [stepPoller, ht]
      rw [hstep]; exact ⟨h1, h2⟩
  | fetchDone r =>
    by_cases hp : s.pendingFetches = 0
    · have hstep : stepPoller s (PollerEvent.fetchDone r) = s := by simp [stepPoller, hp]
      rw [hstep]; exact ⟨h1, h2⟩
    · obtain ⟨hif, hpd, _⟩ := stepPoller_fetchDone_proj hp r
      have hp1 : s.pendingFetches = 1 := by omega
      simp [pollerFetchInv, hif, hpd, hp1]

theorem runPoller_inv {s : PollerState} (h : pollerFetchInv s)
    (evs : List PollerEvent) : pollerFetchInv (runPoller s evs) := by
  induction evs generalizing s with
  | nil => exact h
  | cons e rest ih => exact ih (stepPoller_inv h e)

/-- C3 amended: in `useFilePolling` at most one fetch is in flight per
job at any instant, and a tick arriving while the `isPollingRef` flag is
set is skipped entirely; the inline poller of `App.tsx`, however, has no
in-flight guard (see the counterexample). -/
theorem useFilePolling_single_fetch_inflight (evs : List PollerEvent)
    (s : PollerState) (hs : s.inFlight = true) :
    (runPoller initPollerState evs).pendingFetches ≤ 1 ∧
      stepPoller s PollerEvent.tick = s := by
  refine ⟨(runPoller_inv initPollerState_inv evs).1, ?_⟩
  by_cases ht : s.timerActive <;> simp [stepPoller, ht, hs]

/-- Concrete instance of the in-flight discipline of `useFilePolling`. -/
theorem useFilePolling_single_fetch_inflight_witness :
    ({ initPollerState with inFlight := true } : PollerState).inFlight = true ∧
      ((runPoller initPollerState [PollerEvent.tick]).pendingFetches ≤ 1 ∧
        stepPoller { initPollerState with inFlight := true } PollerEvent.tick =
          { initPollerState with inFlight := true }) :=
  ⟨rfl, useFilePolling_single_fetch_inflight [PollerEvent.tick]
    { initPollerState with inFlight := true } rfl⟩

/-- C3 counterexample: in the inline poller of `App.tsx`, a second timer
tick for job "j1" while the first fetch is still pending starts an
overlapping fetch — two fetches in flight for the same job. -/
theorem appPoller_overlapping_fetch_cex :
    (runAppPoller
        { processingFileIds := ["j1"], files := [], pendingFetches := 0, fetchCount := 0 }
        [AppPollerEvent.tick "j1", AppPollerEvent.tick "j1"]).pendingFetches = 2 := by
  decide

/-- C2 amended (behaviour of `useFilePolling`; the inline `App.tsx`
poller has no retry logic, see the counterexample): each fetch failure
increments `retryCount`; after one or two consecutive failures the timer
stays armed and the next tick fetches again; on the third consecutive
failure the hook clears its timer, invokes the `onError` callback, and
performs no further fetch attempts for that job. -/
theorem useFilePolling_retry_ceiling (evs : List PollerEvent) :
    (runPoller initPollerState (failPairs 1)).retryCount = 1 ∧
    (runPoller initPollerState (failPairs 1)).timerActive = true ∧
    (runPoller initPollerState (failPairs 2)).retryCount = 2 ∧
    (runPoller initPollerState (failPairs 2)).timerActive = true ∧
    (stepPoller (runPoller initPollerState (failPairs 2)) PollerEvent.tick).fetchCount =
      (runPoller initPollerState (failPairs 2)).fetchCount + 1 ∧
    (runPoller initPollerState (failPairs 3)).retryCount = 3 ∧
    (runPoller initPollerState (failPairs 3)).timerActive = false ∧
    (runPoller initPollerState (failPairs 3)).onErrorCalled = true ∧
    runPoller (runPoller initPollerState (failPairs 3)) evs =
      runPoller initPollerState (failPairs 3) := by
  refine ⟨by decide, by decide, by decide, by decide, by decide, by decide, by decide,
    by decide, ?_⟩
  exact runPoller_retired (by decide) (by decide) evs

/-- C2 counterexample: in the inline poller of `App.tsx`, a single fetch
failure removes job "j1" from the polling set at once: exactly one fetch
is ever attempted, subsequent ticks fetch nothing, and the job's status
is left `processing` — never set to `error`. -/
theorem appPoller_first_failure_stops_cex :
    runAppPoller
        { processingFileIds := ["j1"], files := [sampleExpiredFile],
          pendingFetches := 0, fetchCount := 0 }
        [AppPollerEvent.tick "j1", AppPollerEvent.fetchDone "j1" FetchResult.failed,
          AppPollerEvent.tick "j1", AppPollerEvent.tick "j1"] =
      { processingFileIds := [], files := [sampleExpiredFile],
        pendingFetches := 0, fetchCount := 1 } ∧
    sampleExpiredFile.status = JobStatus.processing := by
  decide

/-- C4 amended: the registry update in `pollFile` replaces the stored
record wholesale with the converted snapshot — any record in the updated
registry bearing the polled id carries exactly the incoming progress,
even when it is lower than the stored one (no regression check), and
records with other ids are untouched. -/
theorem applyPolledUpdate_replaces_wholesale (files : List ProcessedFile)
    (apiFile : ApiFile) (g : ProcessedFile)
    (hg : g ∈ applyPolledUpdate files apiFile) :
    (g.id = apiFile.id → g.progress = apiFile.progress) ∧
    (g.id ≠ apiFile.id → g ∈ files) := by
  obtain ⟨f, hf, hfg⟩ := List.mem_map.mp hg
  by_cases hid : f.id = apiFile.id
  · rw [if_pos hid] at hfg
    subst hfg
    exact ⟨fun _ => rfl, fun hne => absurd rfl hne⟩
  · rw [if_neg hid] at hfg
    subst hfg
    exact ⟨fun h => absurd h hid, fun _ => hf⟩

/-- Concrete instance of the wholesale-replacement behaviour of the
registry update. -/
theorem applyPolledUpdate_replaces_wholesale_witness :
    convertApiFileToProcessedFile procSnapshot ∈
        applyPolledUpdate [sampleExpiredFile] procSnapshot ∧
      (convertApiFileToProcessedFile procSnapshot).progress = procSnapshot.progress :=
  ⟨by decide,
    (applyPolledUpdate_replaces_wholesale [sampleExpiredFile] procSnapshot
      (convertApiFileToProcessedFile procSnapshot) (by decide)).1 rfl⟩

/-- C4 counterexample: a snapshot whose progress (30) is lower than the
stored progress (50), with status unchanged `processing`, is applied to
the registry rather than rejected as a no-op. -/
theorem progress_regression_applied_cex :
    ({ sampleExpiredFile with progress := 50 } : ProcessedFile).progress = 50 ∧
    ({ sampleExpiredFile with progress := 50 } : ProcessedFile).status =
      JobStatus.processing ∧
    ({ procSnapshot with progress := 30 } : ApiFile).status = JobStatus.processing ∧
    (applyPolledUpdate [{ sampleExpiredFile with progress := 50 }]
        { procSnapshot with progress := 30 }).map (fun f => f.progress) = [30] := by
  decide

/-- C5: on every successful fetch `useFilePolling` resets `retryCount`
to 0 and hands the returned snapshot to `onUpdate` (the registry write);
a terminal (`completed` / `error`) status clears the timer so that job
is no longer polled, a `processing` status leaves the timer untouched;
in particular after failures 1 and 2 a success brings the counter back
to 0 with the timer still armed. -/
theorem useFilePolling_success_behavior (s : PollerState) (file : ApiFile)
    (hp : 0 < s.pendingFetches) :
    (stepPoller s (PollerEvent.fetchDone (FetchResult.ok file))).retryCount = 0 ∧
    (stepPoller s (PollerEvent.fetchDone (FetchResult.ok file))).lastUpdate = some file ∧
    (file.status = JobStatus.completed ∨ file.status = JobStatus.error →
      (stepPoller s (PollerEvent.fetchDone (FetchResult.ok file))).timerActive = false) ∧
    (file.status = JobStatus.processing →
      (stepPoller s (PollerEvent.fetchDone (FetchResult.ok file))).timerActive =
        s.timerActive) ∧
    (file.status = JobStatus.processing →
      (runPoller initPollerState (failPairs 2 ++
          [PollerEvent.tick, PollerEvent.fetchDone (FetchResult.ok file)])).retryCount = 0 ∧
      (runPoller initPollerState (failPairs 2 ++
          [PollerEvent.tick, PollerEvent.fetchDone (FetchResult.ok file)])).timerActive =
        true) := by
  have hp' : s.pendingFetches ≠ 0 := by omega
  refine ⟨?_, ?_, ?_, ?_, ?_⟩
  · cases hstat : file.status <;> simp [stepPoller, hp', hstat]
  · cases hstat : file.status <;> simp [stepPoller, hp', hstat]
  · intro hterm
    rcases hterm with hc | he
    · simp [stepPoller, hp', hc]
    · simp [stepPoller, hp', he]
  · intro hproc
    simp [stepPoller, hp', hproc]
  · intro hproc
    constructor <;>
      simp [runPoller, failPairs, stepPoller, initPollerState, maxRetries, hproc]

/-- Concrete instance of the success-path claim: a pending fetch for a
`processing` snapshot resets the counter and keeps the timer armed. -/
theorem useFilePolling_success_behavior_witness :
    0 < ({ initPollerState with inFlight := true, pendingFetches := 1 } :
        PollerState).pendingFetches ∧
      (stepPoller { initPollerState with inFlight := true, pendingFetches := 1 }
          (PollerEvent.fetchDone (FetchResult.ok procSnapshot))).retryCount = 0 ∧
      (stepPoller { initPollerState with inFlight := true, pendingFetches := 1 }
          (PollerEvent.fetchDone (FetchResult.ok procSnapshot))).lastUpdate =
        some procSnapshot :=
  ⟨by decide,
    (useFilePolling_success_behavior
      { initPollerState with inFlight := true, pendingFetches := 1 } procSnapshot
      (by decide)).1,
    (useFilePolling_success_behavior
      { initPollerState with inFlight := true, pendingFetches := 1 } procSnapshot
      (by decide)).2.1⟩

/-- C10: the `finally` clause of `pollFileStatus` resets
`isPollingRef.current` on every completion path — in particular when the
fetch rejects — so a failed fetch never leaves the flag stuck: after a
failure below the retry ceiling the very next tick issues a new fetch
instead of being skipped. -/
theorem useFilePolling_inFlight_cleared (s : PollerState) (r : FetchResult)
    (hp : 0 < s.pendingFetches) :
    (stepPoller s (PollerEvent.fetchDone r)).inFlight = false ∧
    (s.timerActive = true → s.retryCount + 1 < maxRetries →
      (stepPoller (stepPoller s (PollerEvent.fetchDone FetchResult.failed))
          PollerEvent.tick).fetchCount = s.fetchCount + 1) := by
  have hp' : s.pendingFetches ≠ 0 := by omega
  refine ⟨(stepPoller_fetchDone_proj hp' r).1, ?_⟩
  intro ht hr
  have hnr : ¬ (s.retryCount + 1 ≥ maxRetries) := by omega
  simp [stepPoller, hp', hnr, ht]

/-- Concrete instance of the `finally`-clears-flag claim: a rejected
fetch leaves the flag false and the following tick fetches again. -/
theorem useFilePolling_inFlight_cleared_witness :
    0 < ({ initPollerState with inFlight := true, pendingFetches := 1 } :
        PollerState).pendingFetches ∧
      (stepPoller { initPollerState with inFlight := true, pendingFetches := 1 }
          (PollerEvent.fetchDone FetchResult.failed)).inFlight = false ∧
      (stepPoller (stepPoller { initPollerState with inFlight := true, pendingFetches := 1 }
            (PollerEvent.fetchDone FetchResult.failed))
          PollerEvent.tick).fetchCount =
        ({ initPollerState with inFlight := true, pendingFetches := 1 } :
          PollerState).fetchCount + 1 :=
  ⟨by decide,
    (useFilePolling_inFlight_cleared
      { initPollerState with inFlight := true, pendingFetches := 1 }
      FetchResult.failed (by decide)).1,
    (useFilePolling_inFlight_cleared
      { initPollerState with inFlight := true, pendingFetches := 1 }
      FetchResult.failed (by decide)).2 rfl (by decide)⟩
